import Mathlib

/-!
Verification development for the StoreFiles file-capture module
(requre/helpers/files.py).

The module packs a file or a directory subtree into a tar archive
(fixed compression) and stores the blob in a persistent key-value
store, or reads such a blob back and unpacks it onto the filesystem.
Three decorators decide which call values are treated as filesystem
paths worth capturing.

Embedding conventions:
  - byte contents are modelled as lists of naturals;
  - a tar archive is modelled as the list of its members, each member
    carrying its member name (as path segments), a regular-file flag
    and its content; the tar-with-xz byte serialization is treated as
    an opaque faithful codec, so store values are member lists;
  - the filesystem is a partial map from path strings to artifacts
    (a file or a directory tree);
  - store and filesystem interactions performed by a call are
    collected as an explicit effect trace, and a Python exception is
    an explicit error value.
-/

/-- Byte string, modelled as a list of byte values. -/
abbrev Bytes := List Nat

/-- A key component of the persistent store: keys are heterogeneous,
strings or integers (guess_args uses the positional index as a key). -/
inductive PSKey where
  | str : String → PSKey
  | num : Nat → PSKey
deriving DecidableEq, Repr

/-- One member of a tar archive: its name as path segments, whether it
is a regular file, and (for regular files) its content. -/
structure TarEntry where
  name : List String
  isfile : Bool
  content : Bytes
deriving DecidableEq, Repr

mutual

/-- An artifact on disk: a regular file with its bytes, or a directory
with a list of named children. -/
inductive FSTree where
  | file : Bytes → FSTree
  | dir : FSList → FSTree

/-- Children of a directory: an ordered list of (name, subtree). -/
inductive FSList where
  | nil : FSList
  | cons : String → FSTree → FSList → FSList

end

mutual

/-- Members produced by tar_store.add(name) for the artifact rooted at
the given member name: a single file member for a file, and for a
directory the directory member followed by the members of all children
(recursively), each child named name/child. -/
def tarAdd (name : List String) : FSTree → List TarEntry
  | FSTree.file c => [⟨name, true, c⟩]
  | FSTree.dir l => ⟨name, false, []⟩ :: tarAddList name l

/-- Members contributed by a list of directory children. -/
def tarAddList (name : List String) : FSList → List TarEntry
  | FSList.nil => []
  | FSList.cons n t rest => tarAdd (name ++ [n]) t ++ tarAddList name rest

end

/-- The write-mode archive construction of _copy_logic: chdir to the
parent of pathname and tar-add the basename, so every member name is
relative and starts with the basename segment. -/
def pack (base : String) (t : FSTree) : List TarEntry :=
  tarAdd [base] t

mutual

/-- Relative paths and contents of all regular files in an artifact. -/
def filesOf : FSTree → List (List String × Bytes)
  | FSTree.file c => [([], c)]
  | FSTree.dir l => filesOfList l

/-- Relative paths and contents of all regular files below a child list. -/
def filesOfList : FSList → List (List String × Bytes)
  | FSList.nil => []
  | FSList.cons n t rest =>
      (filesOf t).map (fun pc => (n :: pc.1, pc.2)) ++ filesOfList rest

end

/-- The member-name rewrite of the read-mode directory branch of
_copy_logic: tar_item.name.split(sep, 1) keeps everything after the
first segment when there is more than one segment, and otherwise the
name becomes the single segment dot. -/
def stripTop (name : List String) : List String :=
  match name with
  | _ :: b :: rest => b :: rest
  | _ => ["."]

/-- Regular-file members of an archive with their stripped names: the
files actually written below the target path by the directory branch
of the read-mode extraction loop. -/
def extractAll (entries : List TarEntry) : List (List String × Bytes) :=
  entries.filterMap (fun e =>
    if e.isfile then some (stripTop e.name, e.content) else none)

/-- Outcome of unpacking an archive at a target path. -/
inductive UnpackResult where
  | singleFile : Bytes → UnpackResult
  | tree : List (List String × Bytes) → UnpackResult
deriving DecidableEq, Repr

/-- The read-mode dispatch of _copy_logic on the first archive member:
an empty member list fails (getmembers()[0] raises IndexError, giving
none); a regular-file first member writes exactly its content at the
target; otherwise every member is extracted below the target with its
first name segment stripped. -/
def unpack (entries : List TarEntry) : Option UnpackResult :=
  match entries with
  | [] => none
  | first :: _ =>
    if first.isfile then some (UnpackResult.singleFile first.content)
    else some (UnpackResult.tree (extractAll entries))

/-- Intended restoration of an artifact: a file restores its bytes at
the target, a directory restores its relative file set below the
target. -/
def unpackSpec : FSTree → UnpackResult
  | FSTree.file c => UnpackResult.singleFile c
  | FSTree.dir l => UnpackResult.tree (filesOfList l)

/-- Regular-file members of an archive with their unmodified names. -/
def fileEntries (es : List TarEntry) : List (List String × Bytes) :=
  es.filterMap (fun e => if e.isfile then some (e.name, e.content) else none)

/-- Auxiliary scan for basename: walk the characters, restarting the
accumulator after every path separator. -/
def basenameAux : List Char → List Char → List Char
  | [], acc => acc
  | c :: rest, acc =>
      if c = '/' then basenameAux rest [] else basenameAux rest (acc ++ [c])

/-- Python os.path.basename for POSIX paths: everything after the last
path separator. -/
def basename (s : String) : String :=
  ⟨basenameAux s.data []⟩

/-- Python os.path.dirname for POSIX paths: the prefix up to and
including the last path separator, with trailing separators stripped
unless the prefix consists of separators only; a path with no
separator has the empty dirname. -/
def dirname (s : String) : String :=
  let head := (s.data.reverse.dropWhile (fun c => c ≠ '/')).reverse
  if head.all (fun c => c = '/') then ⟨head⟩
  else ⟨(head.reverse.dropWhile (fun c => c = '/')).reverse⟩

/-- A Python call value as the decorators see it: a string (a candidate
filesystem path) or any other value, left opaque. -/
inductive Arg where
  | str : String → Arg
  | other : Nat → Arg
deriving DecidableEq, Repr

/-- Positional and keyword arguments of one decorated call. -/
structure Call where
  args : List Arg
  kwargs : List (String × Arg)

/-- The ambient state a decorated call runs against: the process-wide
recording flag, the global store with its write/read mode flag and
storage-file name, the current store contents (decoded archive blobs
by key sequence) and the filesystem (artifact by path string). -/
structure Env where
  recording : Bool
  writeMode : Bool
  storageFile : String
  fs : String → Option FSTree
  stored : List PSKey → Option (List TarEntry)

/-- One observable interaction performed by a decorated call: a store
write of a blob under a key sequence, a store read under a key
sequence, a whole-file write at a path (single-file restore), or the
extraction of one archived file below a target path. -/
inductive Effect where
  | storeOp : List PSKey → List TarEntry → Effect
  | readOp : List PSKey → Effect
  | writeFile : String → Bytes → Effect
  | extractFile : String → List String → Bytes → Effect
deriving DecidableEq, Repr

/-- The Python exceptions the embedded code can raise: the store
exception PersistentStorageException on a missing key, IndexError from
getmembers()[0] on an empty archive, TypeError from passing a
non-string where a path is needed, and the OS FileNotFoundError raised
by the write-mode chdir/tar steps when the dirname of the pathname is
empty (os.chdir of the empty string fails) or the artifact does not
exist. -/
inductive CLError where
  | notFound : CLError
  | indexError : CLError
  | typeError : CLError
  | pathMissing : CLError
deriving DecidableEq, Repr

/-- The fixed key prefix StoreFiles.basic_ps_keys prepended by
_copy_logic to every key sequence. -/
def basic_ps_keys : List PSKey :=
  [PSKey.str "X", PSKey.str "file", PSKey.str "tar"]

/-- StoreFiles._test_identifier: the basename of the storage file of
the global store. -/
def test_identifier (env : Env) : String :=
  basename env.storageFile

/-- StoreFiles._copy_logic. In write mode it first runs os.chdir on
the dirname of pathname — which raises FileNotFoundError when the
dirname is empty (a bare name with no directory component), before any
store interaction — then packs the artifact at pathname (tar built
relative to the parent directory, so member names start with the
basename) and stores the blob under basic_ps_keys ++ keys; a
nonexistent pathname fails with no store interaction (a path can exist
only when its parent directory does, so for an existing artifact with
a nonempty dirname the chdir succeeds). In read mode it reads the blob
under basic_ps_keys ++ keys (raising notFound if absent) and unpacks
it at pathname according to the first-member dispatch; an empty
archive raises after the read, before anything is written. The
returned pair is the effect trace and the exception, if one is
raised. -/
def copy_logic (env : Env) (pathname : Arg) (keys : List PSKey) :
    List Effect × Option CLError :=
  let fullKeys := basic_ps_keys ++ keys
  if env.writeMode then
    match pathname with
    | Arg.other _ => ([], some CLError.typeError)
    | Arg.str p =>
      if dirname p = "" then ([], some CLError.pathMissing)
      else
        match env.fs p with
        | none => ([], some CLError.pathMissing)
        | some t => ([Effect.storeOp fullKeys (pack (basename p) t)], none)
  else
    match env.stored fullKeys with
    | none => ([Effect.readOp fullKeys], some CLError.notFound)
    | some entries =>
      match unpack entries with
      | none => ([Effect.readOp fullKeys], some CLError.indexError)
      | some (UnpackResult.singleFile c) =>
        match pathname with
        | Arg.other _ => ([Effect.readOp fullKeys], some CLError.typeError)
        | Arg.str p => ([Effect.readOp fullKeys, Effect.writeFile p c], none)
      | some (UnpackResult.tree fl) =>
        match pathname with
        | Arg.other _ => ([Effect.readOp fullKeys], some CLError.typeError)
        | Arg.str p =>
          (Effect.readOp fullKeys ::
            fl.map (fun pc => Effect.extractFile p pc.1 pc.2), none)

/-- Modelled from the spec: get_if_recording (requre.utils, not under
src) is a zero-argument process-wide query returning whether
capture/replay logic should engage at all. -/
def get_if_recording (env : Env) : Bool :=
  env.recording

/-- Modelled from the spec: store_function_output
(requre.helpers.function_output, not under src) wraps a callable so
its return value is recorded/replayed by a separate mechanism; this
module treats it as an opaque pass-through wrapper and only uses its
result, so the wrapped callable here already denotes the value the
primitive delivers (the real result on record, the replayed one on
replay). -/
def store_function_output (f : Call → Arg) : Call → Arg :=
  f

/-- StoreFiles.return_value: if not recording, a plain pass-through;
otherwise obtain the output through the output-capture primitive, then
run _copy_logic with the output as the pathname under keys
[class name, test identifier]. -/
def return_value (func : Call → Arg) (env : Env) (c : Call) :
    List Effect × Except CLError Arg :=
  if get_if_recording env = false then ([], Except.ok (func c))
  else
    let output := store_function_output func c
    let res := copy_logic env output
      [PSKey.str "StoreFiles", PSKey.str (test_identifier env)]
    match res.2 with
    | none => (res.1, Except.ok output)
    | some e => (res.1, Except.error e)

/-- Treatment of one candidate argument by guess_args: non-strings are
ignored; a string is packed in write mode only when a filesystem entry
exists at it, and in read mode a restore is attempted with a
PersistentStorageException silently swallowed. -/
def guessOne (env : Env) (ctid : List PSKey) (k : PSKey) (a : Arg) :
    List Effect × Option CLError :=
  match a with
  | Arg.other _ => ([], none)
  | Arg.str s =>
    let keys := ctid ++ [k]
    if env.writeMode then
      if (env.fs s).isSome then copy_logic env (Arg.str s) keys
      else ([], none)
    else
      let res := copy_logic env (Arg.str s) keys
      match res.2 with
      | some CLError.notFound => (res.1, none)
      | e => (res.1, e)

/-- Left-to-right processing of the candidate arguments of guess_args,
stopping at the first uncaught exception. -/
def guessList (env : Env) (ctid : List PSKey) :
    List (PSKey × Arg) → List Effect × Option CLError
  | [] => ([], none)
  | (k, a) :: rest =>
    let res := guessOne env ctid k a
    match res.2 with
    | some e => (res.1, some e)
    | none =>
      let res2 := guessList env ctid rest
      (res.1 ++ res2.1, res2.2)

/-- Positional arguments paired with their zero-based index as a store
key, as in the range(len(args)) loop of guess_args. -/
def enumKeys : Nat → List Arg → List (PSKey × Arg)
  | _, [] => []
  | i, a :: rest => (PSKey.num i, a) :: enumKeys (i + 1) rest

/-- StoreFiles.guess_args: if not recording, a plain pass-through;
otherwise obtain the output through the output-capture primitive, then
scan every positional argument (keyed by index) and every keyword
argument (keyed by name) as a candidate path. -/
def guess_args (func : Call → Arg) (env : Env) (c : Call) :
    List Effect × Except CLError Arg :=
  let ctid := [PSKey.str "StoreFiles", PSKey.str (test_identifier env)]
  if get_if_recording env = false then ([], Except.ok (func c))
  else
    let output := store_function_output func c
    let res1 := guessList env ctid (enumKeys 0 c.args)
    match res1.2 with
    | some e => (res1.1, Except.error e)
    | none =>
      let res2 := guessList env ctid
        (c.kwargs.map (fun kv => (PSKey.str kv.1, kv.2)))
      match res2.2 with
      | some e => (res1.1 ++ res2.1, Except.error e)
      | none => (res1.1 ++ res2.1, Except.ok output)

/-- Keyword-argument lookup by name. -/
def lookupKw (k : String) : List (String × Arg) → Option Arg
  | [] => none
  | (k2, v) :: rest => if k2 = k then some v else lookupKw k rest

/-- Resolution of one declared parameter of arg_references: the
keyword argument with that name if present, else the positional
argument at the declared index. -/
def paramOf (key : String) (position : Nat) (c : Call) : Option Arg :=
  match lookupKw key c.kwargs with
  | some v => some v
  | none => c.args.get? position

/-- Left-to-right processing of the declared parameters of
arg_references: each resolved value is passed to _copy_logic
unconditionally (no existence check, nothing caught); an out-of-range
positional index raises IndexError. -/
def refList (env : Env) (ctid : List PSKey) (c : Call) :
    List (String × Nat) → List Effect × Option CLError
  | [] => ([], none)
  | (key, position) :: rest =>
    match paramOf key position c with
    | none => ([], some CLError.indexError)
    | some p =>
      let res := copy_logic env p (ctid ++ [PSKey.str key])
      match res.2 with
      | some e => (res.1, some e)
      | none =>
        let res2 := refList env ctid c rest
        (res.1 ++ res2.1, res2.2)

/-- StoreFiles.arg_references: the caller declares a mapping from
argument name to positional index; if not recording, a plain
pass-through; otherwise obtain the output through the output-capture
primitive, then pack/restore every declared parameter under keys
[class name, test identifier, argument name]. -/
def arg_references (files_params : List (String × Nat))
    (func : Call → Arg) (env : Env) (c : Call) :
    List Effect × Except CLError Arg :=
  let ctid := [PSKey.str "StoreFiles", PSKey.str (test_identifier env)]
  if get_if_recording env = false then ([], Except.ok (func c))
  else
    let output := store_function_output func c
    let res := refList env ctid c files_params
    match res.2 with
    | some e => (res.1, Except.error e)
    | none => (res.1, Except.ok output)

/-- Failure points of the write-mode branch of _copy_logic after the
original working directory has been saved: the chdir to the parent of
the artifact, the tar creation, and the store call. -/
inductive PyErr where
  | chdirFail : PyErr
  | tarFail : PyErr
  | storeFail : PyErr
deriving DecidableEq, Repr

/-- Which steps of one write-mode run fail. -/
structure PackRun where
  chdirFails : Bool
  tarFails : Bool
  storeFails : Bool

/-- The body of the try block of the write-mode branch, as a transition
on the current working directory: chdir to the parent directory of the
artifact (leaving the directory unchanged if it fails), then tar
creation and the store call (each may fail, leaving the directory at
the artifact parent). -/
def packBody (artifactPath : String) (r : PackRun) (cwd : String) :
    Option PyErr × String :=
  if r.chdirFails then (some PyErr.chdirFail, cwd)
  else if r.tarFails then (some PyErr.tarFail, artifactPath)
  else if r.storeFails then (some PyErr.storeFail, artifactPath)
  else (none, artifactPath)

/-- A try/finally over the working directory: run the body, then run
the finally action on whatever directory the body left behind, keeping
the body error untouched. -/
def tryFinallyCwd (body : String → Option PyErr × String)
    (fin : String → String) (cwd : String) : Option PyErr × String :=
  let res := body cwd
  (res.1, fin res.2)

/-- The write-mode branch of _copy_logic as a working-directory state
machine: save original_cwd, run the try body, and in the finally
clause chdir back to original_cwd. -/
def write_branch (artifactPath : String) (r : PackRun) (cwd : String) :
    Option PyErr × String :=
  let original_cwd := cwd
  tryFinallyCwd (packBody artifactPath r) (fun _ => original_cwd) cwd

/-! Concrete scenarios used by the closed counterexamples and the
witness statements. -/

/-- A concrete wrapped callable returning an opaque value. -/
def fW : Call → Arg := fun _ => Arg.other 7

/-- A concrete wrapped callable returning the path string out. -/
def fOut : Call → Arg := fun _ => Arg.str "out"

/-- A concrete call with one positional string argument. -/
def cW : Call := ⟨[Arg.str "p"], []⟩

/-- A concrete call with one positional string argument, the bare name
src_dir (no directory component, so its dirname is empty). -/
def cSrcDir : Call := ⟨[Arg.str "src_dir"], []⟩

/-- A concrete call with one positional string argument, the path
./src_dir to the same artifact (its dirname is the dot directory, so
the write-mode chdir succeeds). -/
def cSrcDirRel : Call := ⟨[Arg.str "./src_dir"], []⟩

/-- A concrete call with no arguments. -/
def cNil : Call := ⟨[], []⟩

/-- An environment with the recording predicate off. -/
def envOff : Env := ⟨false, true, "test1", fun _ => none, fun _ => none⟩

/-- A replay environment with an empty store and empty filesystem. -/
def envRead : Env := ⟨true, false, "test1", fun _ => none, fun _ => none⟩

/-- A recording write-mode environment with an empty filesystem. -/
def envWriteNoFs : Env := ⟨true, true, "test1", fun _ => none, fun _ => none⟩

/-- The full key sequence the return_value decorator addresses for a
store whose storage-file basename is t1. -/
def rvKeys : List PSKey :=
  basic_ps_keys ++ [PSKey.str "StoreFiles", PSKey.str "t1"]

/-- A replay environment holding a single-file archive blob under the
return_value key sequence for test identifier t1. -/
def envReplayRV : Env :=
  ⟨true, false, "t1", fun _ => none,
   fun ks => if ks = rvKeys then some [⟨["f"], true, [9]⟩] else none⟩

/-- A replay environment holding a zero-member archive blob under the
return_value key sequence for test identifier t1. -/
def envEmptyBlob : Env :=
  ⟨true, false, "t1", fun _ => none,
   fun ks => if ks = rvKeys then some [] else none⟩

/-- A byte content for the scenario file a.txt. -/
def bytesA : Bytes := [10, 11]

/-- A byte content for the scenario file b/c.txt. -/
def bytesC : Bytes := [20, 21]

/-- The src_dir artifact of the record scenario: a directory holding
a.txt and b/c.txt. -/
def treeC3 : FSTree :=
  FSTree.dir (FSList.cons "a.txt" (FSTree.file bytesA)
    (FSList.cons "b"
      (FSTree.dir (FSList.cons "c.txt" (FSTree.file bytesC) FSList.nil))
      FSList.nil))

/-- The record-pass environment: recording on, store in write mode,
storage file test1, and the artifact src_dir present on disk in the
current directory (reachable both as the bare name src_dir and as the
path ./src_dir). -/
def envRecord : Env :=
  ⟨true, true, "test1",
   fun p => if p = "src_dir" ∨ p = "./src_dir" then some treeC3 else none,
   fun _ => none⟩

/-- The key sequence actually sent to the store in the record
scenario: the fixed basic_ps_keys prefix, the class name, the test
identifier, and the zero-based positional index of the argument. -/
def keysC3 : List PSKey :=
  [PSKey.str "X", PSKey.str "file", PSKey.str "tar",
   PSKey.str "StoreFiles", PSKey.str "test1", PSKey.num 0]

/-! Round-trip lemmas relating the packed archive to the file set of
the artifact. -/

theorem fileEntries_append (a b : List TarEntry) :
    fileEntries (a ++ b) = fileEntries a ++ fileEntries b := by
  simp [fileEntries, List.filterMap_append]

mutual

theorem tarAdd_fileEntries (t : FSTree) (nm : List String) :
    fileEntries (tarAdd nm t) =
      (filesOf t).map (fun pc => (nm ++ pc.1, pc.2)) := by
  cases t with
  | file c => simp [tarAdd, filesOf, fileEntries]
  | dir l =>
    have h := tarAddList_fileEntries l nm
    simp [tarAdd, filesOf, fileEntries] at h ⊢
    exact h

theorem tarAddList_fileEntries (l : FSList) (nm : List String) :
    fileEntries (tarAddList nm l) =
      (filesOfList l).map (fun pc => (nm ++ pc.1, pc.2)) := by
  cases l with
  | nil => simp [tarAddList, filesOfList, fileEntries]
  | cons n t rest =>
    have h1 := tarAdd_fileEntries t (nm ++ [n])
    have h2 := tarAddList_fileEntries rest nm
    simp [tarAddList, filesOfList, fileEntries_append, h1, h2,
      List.map_map, Function.comp]

end

theorem filesOfList_path_ne_nil :
    (l : FSList) → ∀ pc ∈ filesOfList l, pc.1 ≠ []
  | FSList.nil => by simp [filesOfList]
  | FSList.cons n t rest => by
    intro pc hmem
    simp [filesOfList] at hmem
    rcases hmem with ⟨a, b, _, hpc⟩ | h2
    · simp [← hpc]
    · exact filesOfList_path_ne_nil rest pc h2

theorem extractAll_eq_fileEntries (es : List TarEntry) :
    extractAll es = (fileEntries es).map (fun pc => (stripTop pc.1, pc.2)) := by
  induction es with
  | nil => simp [extractAll, fileEntries]
  | cons e rest ih =>
    by_cases h : e.isfile
    all_goals simp [extractAll, fileEntries, h] at ih ⊢
    all_goals exact ih

theorem extractAll_tarAddList (b : String) (l : FSList) :
    extractAll (tarAddList [b] l) = filesOfList l := by
  rw [extractAll_eq_fileEntries, tarAddList_fileEntries, List.map_map]
  have h : ∀ pc ∈ filesOfList l,
      ((fun pc => (stripTop pc.1, pc.2)) ∘
        (fun pc => (([b] : List String) ++ pc.1, pc.2))) pc = id pc := by
    intro pc hmem
    have hne := filesOfList_path_ne_nil l pc hmem
    rcases pc with ⟨p, cb⟩
    cases p with
    | nil => simp at hne
    | cons x xs => simp [Function.comp, stripTop]
  rw [List.map_congr_left h, List.map_id]

/-- C1: packing a single regular file or a directory subtree (write-mode
branch of _copy_logic, tar built relative to the parent directory) and
unpacking the resulting blob at a target path (read-mode branch of
_copy_logic) reproduces the artifact exactly: a single file restores the
same bytes at the target path, and a directory restores the same
relative file set with the same contents below the target path, without
the synthetic top-level directory name. -/
theorem pack_unpack_roundtrip (b : String) (t : FSTree) :
    unpack (pack b t) = some (unpackSpec t) := by
  cases t with
  | file c => simp [pack, tarAdd, unpack, unpackSpec]
  | dir l =>
    simp [pack, tarAdd, unpack, unpackSpec]
    rw [show extractAll (⟨[b], false, []⟩ :: tarAddList [b] l) =
        extractAll (tarAddList [b] l) from by simp [extractAll]]
    exact extractAll_tarAddList b l

/-- C2: with the global recording predicate off, each of the three
decorators returns exactly what the undecorated function returns, with
an empty interaction trace: no store, no read, no archiving. -/
theorem mode_gating (f g h : Call → Arg) (fp : List (String × Nat))
    (env : Env) (c : Call) (hrec : env.recording = false) :
    return_value f env c = ([], Except.ok (f c)) ∧
    guess_args g env c = ([], Except.ok (g c)) ∧
    arg_references fp h env c = ([], Except.ok (h c)) := by
  refine ⟨?_, ?_, ?_⟩ <;>
    simp [return_value, guess_args, arg_references, get_if_recording, hrec]

/-- C7: for every stored archive with at least one member, the
read-mode branch of _copy_logic dispatches on the first member: a
regular-file first member writes exactly its content at the target
path, and otherwise every regular-file member is extracted below the
target with its first name segment stripped (a name with no further
segments becomes the single segment dot), so no synthetic top-level
wrapper appears below the target. -/
theorem copy_logic_unpack_dispatch (env : Env) (p : String)
    (keys : List PSKey) (e : TarEntry) (es : List TarEntry)
    (hw : env.writeMode = false)
    (hs : env.stored (basic_ps_keys ++ keys) = some (e :: es)) :
    copy_logic env (Arg.str p) keys =
      if e.isfile then
        ([Effect.readOp (basic_ps_keys ++ keys),
          Effect.writeFile p e.content], none)
      else
        (Effect.readOp (basic_ps_keys ++ keys) ::
          (fileEntries (e :: es)).map
            (fun pc => Effect.extractFile p (stripTop pc.1) pc.2), none) := by
  by_cases hf : e.isfile
  · simp [copy_logic, hw, hs, unpack, hf]
  · simp [copy_logic, hw, hs, unpack, hf, extractAll_eq_fileEntries,
      List.map_map, Function.comp]

/-- C8: whatever subset of the chdir, tar-creation and store steps
fails, the write-mode branch leaves the working directory at its
original value, and the error it reports is exactly the error of the
first failing step, not replaced or swallowed by the restore. -/
theorem write_branch_restores_cwd (p : String) (r : PackRun) (cwd : String) :
    (write_branch p r cwd).2 = cwd ∧
    (write_branch p r cwd).1 =
      (if r.chdirFails then some PyErr.chdirFail
       else if r.tarFails then some PyErr.tarFail
       else if r.storeFails then some PyErr.storeFail
       else none) := by
  rcases r with ⟨c1, t1, s1⟩
  cases c1 <;> cases t1 <;> cases s1 <;>
    simp [write_branch, tryFinallyCwd, packBody]

/-- C10: a read-mode _copy_logic call whose stored blob is an archive
with zero members raises IndexError (indexing the empty member list)
after the store read, and writes nothing at the target path. -/
theorem copy_logic_empty_archive (env : Env) (a : Arg) (keys : List PSKey)
    (hw : env.writeMode = false)
    (hs : env.stored (basic_ps_keys ++ keys) = some []) :
    copy_logic env a keys =
      ([Effect.readOp (basic_ps_keys ++ keys)], some CLError.indexError) := by
  simp [copy_logic, hw, hs, unpack]

/-! Helper lemmas about the guess_args candidate loop. -/

theorem guessList_none_of_all_missing (env : Env) (ctid : List PSKey)
    (hw : env.writeMode = false) :
    (items : List (PSKey × Arg)) →
    (∀ k s, (k, Arg.str s) ∈ items →
      env.stored (basic_ps_keys ++ (ctid ++ [k])) = none) →
    (guessList env ctid items).2 = none
  | [], _ => by simp [guessList]
  | (k, a) :: rest, habs => by
    have ihrest := guessList_none_of_all_missing env ctid hw rest
      (fun k2 s2 h => habs k2 s2 (by simp [h]))
    cases a with
    | other n => simp [guessList, guessOne, ihrest]
    | str s =>
      have h1 := habs k s (by simp)
      simp [guessList, guessOne, hw, copy_logic, h1, ihrest]

theorem guessList_skips_nonexistent (env : Env) (ctid : List PSKey)
    (hw : env.writeMode = true) :
    (items : List (PSKey × Arg)) →
    (∀ k s, (k, Arg.str s) ∈ items → env.fs s = none) →
    guessList env ctid items = ([], none)
  | [], _ => by simp [guessList]
  | (k, a) :: rest, habs => by
    have ihrest := guessList_skips_nonexistent env ctid hw rest
      (fun k2 s2 h => habs k2 s2 (by simp [h]))
    cases a with
    | other n => simp [guessList, guessOne, ihrest]
    | str s =>
      have h1 := habs k s (by simp)
      simp [guessList, guessOne, hw, h1, ihrest]

theorem copy_logic_write_store_src (env : Env) (a : Arg) (keys : List PSKey)
    (hw : env.writeMode = true) :
    ∀ ks blob, Effect.storeOp ks blob ∈ (copy_logic env a keys).1 →
      ∃ s t, env.fs s = some t ∧ blob = pack (basename s) t := by
  intro ks blob hmem
  cases a with
  | other n => simp [copy_logic, hw] at hmem
  | str p =>
    by_cases hd : dirname p = ""
    · simp [copy_logic, hw, hd] at hmem
    · cases hfs : env.fs p with
      | none => simp [copy_logic, hw, hd, hfs] at hmem
      | some t =>
        simp [copy_logic, hw, hd, hfs] at hmem
        exact ⟨p, t, hfs, hmem.2⟩

theorem guessList_store_src (env : Env) (ctid : List PSKey)
    (hw : env.writeMode = true) :
    (items : List (PSKey × Arg)) →
    ∀ ks blob, Effect.storeOp ks blob ∈ (guessList env ctid items).1 →
      ∃ s t, env.fs s = some t ∧ blob = pack (basename s) t
  | [] => by simp [guessList]
  | (k, a) :: rest => by
    intro ks blob hmem
    have hone : ∀ h2 ∈ (guessOne env ctid k a).1,
        h2 = Effect.storeOp ks blob →
        ∃ s t, env.fs s = some t ∧ blob = pack (basename s) t := by
      intro h2 hh2 heq
      subst heq
      cases a with
      | other n => simp [guessOne] at hh2
      | str s =>
        simp [guessOne, hw] at hh2
        by_cases hfs : (env.fs s).isSome
        · simp [hfs] at hh2
          exact copy_logic_write_store_src env (Arg.str s) (ctid ++ [k]) hw
            ks blob hh2
        · simp [hfs] at hh2
    rcases hres : (guessOne env ctid k a).2 with _ | e
    · simp [guessList, hres] at hmem
      rcases hmem with h | h
      · exact hone _ h rfl
      · exact guessList_store_src env ctid hw rest ks blob h
    · simp [guessList, hres] at hmem
      exact hone _ hmem rfl

/-- C5: on replay (recording on, store in read mode), when no string
argument of a guess_args-decorated call has an artifact recorded under
its key sequence, every PersistentStorageException raised by the
restore attempts is caught and ignored, and the call still returns the
replayed result of the wrapped function normally. -/
theorem guess_args_tolerates_missing (f : Call → Arg) (env : Env) (c : Call)
    (hrec : env.recording = true) (hw : env.writeMode = false)
    (habs : ∀ k s, (k, Arg.str s) ∈
        enumKeys 0 c.args ++ c.kwargs.map (fun kv => (PSKey.str kv.1, kv.2)) →
      env.stored (basic_ps_keys ++
        ([PSKey.str "StoreFiles", PSKey.str (test_identifier env)] ++ [k])) =
        none) :
    (guess_args f env c).2 = Except.ok (f c) := by
  have h1 := guessList_none_of_all_missing env
    [PSKey.str "StoreFiles", PSKey.str (test_identifier env)] hw
    (enumKeys 0 c.args) (fun k s h => habs k s (by simp [h]))
  have h2 := guessList_none_of_all_missing env
    [PSKey.str "StoreFiles", PSKey.str (test_identifier env)] hw
    (c.kwargs.map (fun kv => (PSKey.str kv.1, kv.2)))
    (fun k s h => habs k s (by simp [h]))
  simp [guess_args, get_if_recording, hrec, store_function_output, h1, h2]

/-- C9: in recording/write mode, a guess_args-decorated call packs and
stores a string argument only if a filesystem entry actually exists at
that string: when no string argument names an existing entry the call
performs no interaction at all and returns normally, and every blob the
call ever stores is the packed archive of an artifact that exists on
the filesystem. -/
theorem guess_args_write_existence (f : Call → Arg) (env : Env) (c : Call)
    (hrec : env.recording = true) (hw : env.writeMode = true) :
    ((∀ k s, (k, Arg.str s) ∈
        enumKeys 0 c.args ++ c.kwargs.map (fun kv => (PSKey.str kv.1, kv.2)) →
        env.fs s = none) →
      guess_args f env c = ([], Except.ok (f c))) ∧
    (∀ ks blob, Effect.storeOp ks blob ∈ (guess_args f env c).1 →
      ∃ s t, env.fs s = some t ∧ blob = pack (basename s) t) := by
  constructor
  · intro habs
    have h1 := guessList_skips_nonexistent env
      [PSKey.str "StoreFiles", PSKey.str (test_identifier env)] hw
      (enumKeys 0 c.args) (fun k s h => habs k s (by simp [h]))
    have h2 := guessList_skips_nonexistent env
      [PSKey.str "StoreFiles", PSKey.str (test_identifier env)] hw
      (c.kwargs.map (fun kv => (PSKey.str kv.1, kv.2)))
      (fun k s h => habs k s (by simp [h]))
    simp [guess_args, get_if_recording, hrec, store_function_output, h1, h2]
  · intro ks blob hmem
    have hsrc1 := guessList_store_src env
      [PSKey.str "StoreFiles", PSKey.str (test_identifier env)] hw
      (enumKeys 0 c.args) ks blob
    have hsrc2 := guessList_store_src env
      [PSKey.str "StoreFiles", PSKey.str (test_identifier env)] hw
      (c.kwargs.map (fun kv => (PSKey.str kv.1, kv.2))) ks blob
    rcases hr1 : (guessList env
        [PSKey.str "StoreFiles", PSKey.str (test_identifier env)]
        (enumKeys 0 c.args)).2 with _ | e1
    · rcases hr2 : (guessList env
          [PSKey.str "StoreFiles", PSKey.str (test_identifier env)]
          (c.kwargs.map (fun kv => (PSKey.str kv.1, kv.2)))).2 with _ | e2
      · simp [guess_args, get_if_recording, hrec, hr1, hr2] at hmem
        rcases hmem with h | h
        · exact hsrc1 h
        · exact hsrc2 h
      · simp [guess_args, get_if_recording, hrec, hr1, hr2] at hmem
        rcases hmem with h | h
        · exact hsrc1 h
        · exact hsrc2 h
    · simp [guess_args, get_if_recording, hrec, hr1] at hmem
      exact hsrc1 hmem

/-- C6: on replay (recording on, store in read mode), when the first
declared parameter of an arg_references-decorated call resolves to a
value but its artifact key sequence is absent from the store, the call
raises PersistentStorageException (the not-found error of the store),
propagated to the caller rather than swallowed. -/
theorem arg_references_missing_raises (f : Call → Arg) (env : Env)
    (c : Call) (key : String) (position : Nat)
    (rest : List (String × Nat)) (p : Arg)
    (hrec : env.recording = true) (hw : env.writeMode = false)
    (hparam : paramOf key position c = some p)
    (hst : env.stored (basic_ps_keys ++
      ([PSKey.str "StoreFiles", PSKey.str (test_identifier env)] ++
        [PSKey.str key])) = none) :
    (arg_references ((key, position) :: rest) f env c).2 =
      Except.error CLError.notFound := by
  have hst2 : env.stored (basic_ps_keys ++
      [PSKey.str "StoreFiles", PSKey.str (test_identifier env),
        PSKey.str key]) = none := by
    simpa using hst
  simp [arg_references, get_if_recording, hrec, refList, hparam,
    copy_logic, hw, hst2]

/-- C4 (amended): on replay (recording on, store in read mode), a
return_value-decorated call does run the read-mode copy logic: it
reads the archive blob stored under the return_value key sequence and,
when the blob is a nonempty archive and the replayed output is a
string, unpacks the blob at that returned path (a whole-file write or
a stripped extraction, by the first-member dispatch); the return value
itself is the one delivered by the output-capture primitive. -/
theorem return_value_replay_extracts (f : Call → Arg) (env : Env)
    (c : Call) (s : String) (entries : List TarEntry) (r : UnpackResult)
    (hrec : env.recording = true) (hw : env.writeMode = false)
    (hf : f c = Arg.str s)
    (hst : env.stored (basic_ps_keys ++
      [PSKey.str "StoreFiles", PSKey.str (test_identifier env)]) =
      some entries)
    (hu : unpack entries = some r) :
    return_value f env c =
      (Effect.readOp (basic_ps_keys ++
          [PSKey.str "StoreFiles", PSKey.str (test_identifier env)]) ::
        (match r with
         | UnpackResult.singleFile cb => [Effect.writeFile s cb]
         | UnpackResult.tree fl =>
             fl.map (fun pc => Effect.extractFile s pc.1 pc.2)),
       Except.ok (Arg.str s)) := by
  cases r with
  | singleFile cb =>
    simp [return_value, get_if_recording, hrec, store_function_output,
      copy_logic, hw, hst, hu, hf]
  | tree fl =>
    simp [return_value, get_if_recording, hrec, store_function_output,
      copy_logic, hw, hst, hu, hf]

/-- C3 (counterexample): at the exact pinned input, calling the
guess_args-decorated function on the bare name src_dir in write mode
with src_dir existing on disk, the store receives zero entries — not
one entry under any key sequence — and the call raises: the dirname of
src_dir is empty, so the write-mode os.chdir fails with
FileNotFoundError before any store interaction. -/
theorem guess_args_record_keys_counterexample :
    guess_args fW envRecord cSrcDir = ([], Except.error CLError.pathMissing) := by
  rfl

/-- C3 (amended): in the record scenario with the artifact addressed
as ./src_dir (a path with a nonempty directory component, so the
write-mode chdir succeeds; the bare name src_dir itself makes the call
raise FileNotFoundError with zero store entries), the store receives
exactly one entry, under the key sequence basic_ps_keys followed by
the class name, the test identifier test1 and the positional index
zero — not the key sequence the claim states — and the stored blob
decodes to an archive that restores both a.txt and b/c.txt with
identical content. -/
theorem guess_args_record_scenario :
    guess_args fW envRecord cSrcDirRel =
      ([Effect.storeOp keysC3 (pack "src_dir" treeC3)],
        Except.ok (fW cSrcDirRel)) ∧
    keysC3 ≠
      [PSKey.str "StoreFiles", PSKey.str "test1", PSKey.str "src_dir"] ∧
    unpack (pack "src_dir" treeC3) =
      some (UnpackResult.tree [(["a.txt"], bytesA), (["b", "c.txt"], bytesC)]) := by
  refine ⟨?_, ?_, ?_⟩
  · rfl
  · decide
  · decide

/-- C4 (counterexample): a concrete replay call of a
return_value-decorated function does read an archive blob from the
store and does write the restored file at the returned path. -/
theorem return_value_replay_counterexample :
    (return_value fOut envReplayRV cNil).1 =
      [Effect.readOp rvKeys, Effect.writeFile "out" [9]] := by
  decide

/-- Witness for the amended C4 theorem at a concrete replay call. -/
theorem return_value_replay_extracts_witness :
    return_value fOut envReplayRV cNil =
      ([Effect.readOp rvKeys, Effect.writeFile "out" [9]],
        Except.ok (Arg.str "out")) := by
  have h := return_value_replay_extracts fOut envReplayRV cNil "out"
    [⟨["f"], true, [9]⟩] (UnpackResult.singleFile [9])
    rfl rfl rfl (by decide) (by decide)
  simpa using h

/-- Witness for the C2 theorem at a concrete call. -/
theorem mode_gating_witness :
    return_value fW envOff cW = ([], Except.ok (fW cW)) ∧
    guess_args fW envOff cW = ([], Except.ok (fW cW)) ∧
    arg_references [] fW envOff cW = ([], Except.ok (fW cW)) :=
  mode_gating fW fW fW [] envOff cW rfl

/-- Witness for the C5 theorem at a concrete replay call with one
never-recorded string argument. -/
theorem guess_args_tolerates_missing_witness :
    (guess_args fW envRead cW).2 = Except.ok (fW cW) :=
  guess_args_tolerates_missing fW envRead cW rfl rfl (fun _ _ _ => rfl)

/-- Witness for the C6 theorem at a concrete replay call with one
declared parameter absent from the store. -/
theorem arg_references_missing_raises_witness :
    (arg_references [("f1", 0)] fW envRead cW).2 =
      Except.error CLError.notFound :=
  arg_references_missing_raises fW envRead cW "f1" 0 [] (Arg.str "p")
    rfl rfl rfl rfl

/-- Witness for the C7 theorem at a concrete read-mode call on a
single-file archive. -/
theorem copy_logic_unpack_dispatch_witness :
    copy_logic envReplayRV (Arg.str "out")
      [PSKey.str "StoreFiles", PSKey.str "t1"] =
      ([Effect.readOp rvKeys, Effect.writeFile "out" [9]], none) := by
  have h := copy_logic_unpack_dispatch envReplayRV "out"
    [PSKey.str "StoreFiles", PSKey.str "t1"] ⟨["f"], true, [9]⟩ []
    rfl (by decide)
  simpa using h

/-- Witness for the C9 theorem at a concrete write-mode call whose
string argument names no existing filesystem entry. -/
theorem guess_args_write_existence_witness :
    guess_args fW envWriteNoFs cW = ([], Except.ok (fW cW)) :=
  (guess_args_write_existence fW envWriteNoFs cW rfl rfl).1
    (fun _ _ _ => rfl)

/-- Witness for the C10 theorem at a concrete read-mode call on a
zero-member archive blob. -/
theorem copy_logic_empty_archive_witness :
    copy_logic envEmptyBlob (Arg.str "out")
      [PSKey.str "StoreFiles", PSKey.str "t1"] =
      ([Effect.readOp rvKeys], some CLError.indexError) := by
  have h := copy_logic_empty_archive envEmptyBlob (Arg.str "out")
    [PSKey.str "StoreFiles", PSKey.str "t1"] rfl (by decide)
  simpa using h
